import Mathlib

/-!
Verification of the PropMatch backend ranking, caching, constraint and
security code.  Scores are modelled as rationals (the Python code uses
floats only for arithmetic that is exact on the inputs of interest),
strings as Lean `String`s, and fallible computations (Python exceptions)
as `Option`.  Each definition embeds the Python function named in its
doc comment, translated line by line from the repository source.
-/

namespace PropMatch

/- ### Character and string helpers
Embeddings of the Python primitives `str.lower` and `str.strip` used by
`redis_cache._generate_cache_key`, and of the `in` substring test used
throughout `enhanced_search_service`. -/

/-- ASCII lower-casing of one character, as Python `str.lower` acts on the
ASCII strings handled by the service. -/
def lowerChar (c : Char) : Char :=
  if 'A' ≤ c ∧ c ≤ 'Z' then Char.ofNat (c.toNat + 32) else c

/-- Whitespace predicate used by Python `str.strip` (the service only ever
handles the four common whitespace characters). -/
def isSpaceC (c : Char) : Bool :=
  c == ' ' || c == '\t' || c == '\n' || c == '\r'

/-- Lower-case a character list. -/
def lowerL (l : List Char) : List Char := l.map lowerChar

/-- Strip whitespace from both ends of a character list (Python `str.strip`). -/
def trimL (l : List Char) : List Char :=
  ((l.dropWhile isSpaceC).reverse.dropWhile isSpaceC).reverse

/-- Lower-case a string (Python `str.lower`). -/
def strLower (s : String) : String := ⟨lowerL s.data⟩

/-- Strip a string (Python `str.strip`). -/
def strStrip (s : String) : String := ⟨trimL s.data⟩

/-- Does `l` contain `pat` as a contiguous sublist? -/
def hasInfix : List Char → List Char → Bool
  | [], pat => pat.isEmpty
  | l@(_ :: t), pat => pat.isPrefixOf l || hasInfix t pat

/-- Python's `pat in s` substring test. -/
def containsTok (s pat : String) : Bool := hasInfix s.data pat.data

/- ### Explanation cache key (`app/core/redis_cache.py`) -/

/-- The fixed cache-key namespace `self.cache_prefix` of `RedisExplanationCache`. -/
def cachePrefixStr : String := "propmatch:explanation:"

/-- Embeds `RedisExplanationCache._generate_cache_key`:
`combined_string = f"{search_query.strip().lower()}:{listing_number}"`,
`cache_hash = hashlib.md5(combined_string.encode()).hexdigest()`, returning
`f"{self.cache_prefix}{cache_hash}"`.  The external `hashlib.md5` digest is
taken as a function parameter `md5hex`. -/
def _generate_cache_key (md5hex : String → String) (search_query listing_number : String) : String :=
  cachePrefixStr ++ md5hex (strLower (strStrip search_query) ++ ":" ++ listing_number)

/- ### Hybrid / AI score fusion (`app/services/bm25_hybrid_service.py`) -/

/-- Embeds the per-listing body of
`BM25HybridService._combine_hybrid_and_ai_scores`: the AI-dominant
piecewise blend of `ai_score` and `hybrid_base`, followed by
`final_score = min(100, max(10, final_score))`. -/
def _combine_score (ai_score hybrid_base : ℚ) : ℚ :=
  let final_score :=
    if ai_score ≥ 85 then
      (if hybrid_base ≥ 75 then ai_score + 2 else ai_score)
    else if ai_score ≥ 70 then
      (if hybrid_base ≥ 70 then 0.7 * ai_score + 0.3 * hybrid_base + 3
       else 0.8 * ai_score + 0.2 * hybrid_base)
    else if ai_score ≥ 50 then 0.6 * ai_score + 0.4 * hybrid_base
    else if ai_score ≤ 30 then
      (if hybrid_base ≤ 40 then ai_score else 0.8 * ai_score + 0.2 * hybrid_base)
    else 0.65 * ai_score + 0.35 * hybrid_base
  min 100 (max 10 final_score)

/-- The fusion rule exactly as the specification words it (piecewise on
`llm`, before clamping): used to compare the spec sentence with the code. -/
def fusionSpec (llm hybrid_base : ℚ) : ℚ :=
  if llm ≥ 85 then (if hybrid_base ≥ 75 then llm + 2 else llm)
  else if 70 ≤ llm ∧ llm < 85 then
    (if hybrid_base ≥ 70 then 0.7 * llm + 0.3 * hybrid_base + 3
     else 0.8 * llm + 0.2 * hybrid_base)
  else if 50 ≤ llm ∧ llm < 70 then 0.6 * llm + 0.4 * hybrid_base
  else if 30 < llm ∧ llm < 50 then 0.65 * llm + 0.35 * hybrid_base
  else (if hybrid_base ≤ 40 then llm else 0.8 * llm + 0.2 * hybrid_base)

/-- Round-half-to-even on rationals, the rounding mode of Python `round`. -/
def roundHalfEven (q : ℚ) : ℤ :=
  let f := ⌊q⌋
  let frac := q - f
  if frac < 1/2 then f
  else if 1/2 < frac then f + 1
  else if f % 2 = 0 then f else f + 1

/-- Python `round(x, 1)`: round to one decimal place. -/
def roundTo1 (q : ℚ) : ℚ := (roundHalfEven (10 * q) : ℚ) / 10

/-- The final fusion value exactly as the spec claims it (piecewise rule,
clamp to [10,100], round to one decimal). -/
def specFinalScore (llm hybrid_base : ℚ) : ℚ :=
  roundTo1 (min 100 (max 10 (fusionSpec llm hybrid_base)))

/-- `q` has at most one fractional digit. -/
def oneDecimal (q : ℚ) : Bool := (10 * q).den == 1

/-- Embeds the clamp-and-round tail of
`EnhancedSearchService._fast_score_and_rank`:
`final_score = min(final_score, 100.0)`, `final_score = max(final_score, 15.0)`,
`final_score = round(final_score, 1)`. -/
def fastScoreClamp (final_score : ℚ) : ℚ :=
  roundTo1 (max (min final_score 100) 15)

/- ### LLM score application (`app/services/ai_rerank_service.py`) -/

/-- Is `s` an exact multiple of 5 (Python `ai_score % 5 == 0`)? -/
def multipleOf5 (s : ℚ) : Bool := (s / 5).den == 1

/-- Embeds the per-listing body of
`AIRerankService._apply_enhanced_ai_scores` (the branch on `if i in ai_scores`):
a listing present in the parsed ranking receives its AI score, de-clumped when
it is a multiple of 5 other than 15/25/35 by the deterministic offset
`((i*7) % 6) - 2` and clamped to [15,100]; a listing missing from the ranking
keeps its previous `searchScore`.  `aiRank i` is `ai_scores.get(i)` for the
parsed response. -/
def _apply_enhanced_ai_score (aiRank : ℕ → Option ℚ) (i : ℕ) (prevScore : ℚ) : ℚ :=
  match aiRank i with
  | some s =>
    if multipleOf5 s && !(s == 15 || s == 25 || s == 35) then
      max 15 (min 100 (s + ((((i * 7) % 6 : ℕ) : ℚ) - 2)))
    else s
  | none => prevScore

/- ### BM25 scoring (`app/services/bm25_hybrid_service.py`) -/

/-- `self.k1 = 1.5` of `BM25HybridService`. -/
def bm25_k1 : ℚ := 1.5

/-- `self.b = 0.75` of `BM25HybridService`. -/
def bm25_b : ℚ := 0.75

/-- Python division, raising (`none`) on a zero denominator. -/
def divQ? (a b : ℚ) : Option ℚ := if b = 0 then none else some (a / b)

/-- `self.idf_cache.get(term, 0)`: the IDF cache lookup with default 0 for
unknown terms.  The cache is an association list of (term, idf) pairs. -/
def idfGet (idf_cache : List (String × ℚ)) (term : String) : ℚ :=
  match idf_cache.find? (fun p => p.1 == term) with
  | some p => p.2
  | none => 0

/-- One iteration of the `for term in query_terms` loop of
`BM25HybridService._calculate_bm25_scores`: when `term` occurs in the
document, add `idf * (tf*(k1+1)) / (tf + k1*(1 - b + b*(doc_length/avgdl)))`
to the accumulator; divisions raise on zero denominators as in Python. -/
def bm25TermStep (idf_cache : List (String × ℚ)) (avgdl : ℚ) (docTerms : List String)
    (score : ℚ) (term : String) : Option ℚ :=
  let tf := docTerms.count term
  if 0 < tf then do
    let ratio ← divQ? (docTerms.length : ℚ) avgdl
    let denominator := (tf : ℚ) + bm25_k1 * (1 - bm25_b + bm25_b * ratio)
    let q ← divQ? ((tf : ℚ) * (bm25_k1 + 1)) denominator
    some (score + idfGet idf_cache term * q)
  else some score

/-- Embeds the per-document body of
`BM25HybridService._calculate_bm25_scores`: fold the term loop over the
query terms starting from `score = 0.0` and return
`max(0, score)`; `none` models a Python `ZeroDivisionError`. -/
def _calculate_bm25_score (idf_cache : List (String × ℚ)) (avgdl : ℚ)
    (queryTerms docTerms : List String) : Option ℚ :=
  (queryTerms.foldlM (bm25TermStep idf_cache avgdl docTerms) 0).map (fun s => max 0 s)

/-- Embeds the average-document-length computation of
`BM25HybridService._build_bm25_corpus`:
`self.avgdl = total_length / len(self.properties_corpus) if self.properties_corpus else 0`,
where `total_length` sums the token counts of the sampled documents. -/
def _build_avgdl (docs : List (List String)) : ℚ :=
  if docs.isEmpty then 0
  else ((docs.map List.length).sum : ℚ) / (docs.length : ℚ)

/- ### Constraint overlay (`app/services/enhanced_search_service.py`) -/

/-- A point of interest of a listing (`PointOfInterest` in
`app/models/property.py`): name and distance in km. -/
structure POI where
  name : String
  distance : ℚ
deriving DecidableEq

/-- The listing fields read by the constraint overlay (`Property` in
`app/models/property.py`). -/
structure Listing where
  price : ℚ
  bedrooms : ℕ
  type : String
  neighborhood : String
  points_of_interest : List POI
deriving DecidableEq

/-- The `impossible_locations` list of
`EnhancedSearchService._apply_hard_constraints`. -/
def impossible_locations : List String :=
  ["johannesburg", "joburg", "jozi", "gauteng",
   "durban", "kwazulu", "natal",
   "pretoria", "tshwane",
   "bloemfontein", "free state",
   "port elizabeth", "gqeberha", "eastern cape",
   "polokwane", "limpopo",
   "kimberley", "northern cape",
   "nelspruit", "mbombela", "mpumalanga",
   "rustenburg", "north west",
   "london", "new york", "paris", "dubai"]

/-- Embeds `EnhancedSearchService._apply_hard_constraints`.  `priceUnder`
and `priceOver` are the captures (scaled by 10^6 as in the source) of the
regexes `(?:under|below|less than)\s+(\d+(?:\.\d+)?)\s*(?:million|mil|m)` and
`(?:over|above|more than)\s+...` on `query_lower`; the impossible-location
scan (with its `break` after the first hit) is the `any` below. -/
def _apply_hard_constraints (priceUnder priceOver : Option ℚ) (prop : Listing)
    (query_lower : String) (current_score : ℚ) : ℚ :=
  let s1 := match priceUnder with
    | some price_limit => if prop.price > price_limit then current_score * 0.3 else current_score
    | none => current_score
  let s2 := match priceOver with
    | some price_minimum => if prop.price < price_minimum then s1 * 0.3 else s1
    | none => s1
  if impossible_locations.any (fun loc => containsTok query_lower loc) then s2 * 0.2 else s2

/-- The UCT POI filter of `EnhancedSearchService._apply_proximity_bonuses`:
`'uct' in poi.name.lower() or ('university' in ... and 'cape town' in ...) or
'university of cape town' in poi.name.lower()`. -/
def isUctPoi (poi : POI) : Bool :=
  let n := strLower poi.name
  containsTok n "uct" ||
  (containsTok n "university" && containsTok n "cape town") ||
  containsTok n "university of cape town"

/-- The waterfront POI filter: `'waterfront' in poi.name.lower() or 'v&a' in
poi.name.lower()`. -/
def isWaterfrontPoi (poi : POI) : Bool :=
  let n := strLower poi.name
  containsTok n "waterfront" || containsTok n "v&a"

/-- Distance of the closest POI in a non-empty list
(`min(pois, key=lambda x: x.distance).distance`). -/
def closestDistance (p : POI) (ps : List POI) : ℚ :=
  (ps.map POI.distance).foldl min p.distance

/-- The UCT query triggers of `_apply_proximity_bonuses`. -/
def uctQueryTerms : List String := ["uct", "university of cape town", "university cape town"]

/-- The walking-qualifier triggers of `_apply_proximity_bonuses`. -/
def walkingTerms : List String := ["walking distance", "walk to", "walkable", "walking"]

/-- The waterfront query triggers of `_apply_proximity_bonuses`. -/
def waterfrontTerms : List String := ["v&a", "waterfront", "v and a"]

/-- The CBD query triggers of `_apply_proximity_bonuses`. -/
def cbdTerms : List String := ["cbd", "city centre", "city center", "downtown"]

/-- The CBD neighbourhood list of `_apply_proximity_bonuses`. -/
def cbd_areas : List String := ["cape town city centre", "foreshore", "city bowl"]

/-- The UCT proximity multiplier applied by `_apply_proximity_bonuses` (the
factor its first block multiplies `current_score` by; 1 when the block does
not fire). -/
def uctFactor (prop : Listing) (query_lower : String) : ℚ :=
  if uctQueryTerms.any (fun t => containsTok query_lower t) then
    match prop.points_of_interest.filter isUctPoi with
    | [] => 1
    | p :: ps =>
      let uct_distance := closestDistance p ps
      if walkingTerms.any (fun t => containsTok query_lower t) then
        if uct_distance ≤ 1 then 1.4
        else if uct_distance ≤ 1.5 then 1.25
        else if uct_distance ≤ 2 then 1.1
        else 0.7
      else
        if uct_distance ≤ 2 then 1.2
        else if uct_distance ≤ 4 then 1.1
        else 1
  else 1

/-- The V&A Waterfront multiplier of `_apply_proximity_bonuses`. -/
def waterfrontFactor (prop : Listing) (query_lower : String) : ℚ :=
  if waterfrontTerms.any (fun t => containsTok query_lower t) then
    match prop.points_of_interest.filter isWaterfrontPoi with
    | [] => 1
    | p :: ps => if closestDistance p ps ≤ 2 then 1.15 else 1
  else 1

/-- The CBD multiplier of `_apply_proximity_bonuses`. -/
def cbdFactor (prop : Listing) (query_lower : String) : ℚ :=
  if cbdTerms.any (fun t => containsTok query_lower t) then
    if cbd_areas.any (fun a => containsTok (strLower prop.neighborhood) a) then 1.1 else 1
  else 1

/-- The UCT proximity block of
`EnhancedSearchService._apply_proximity_bonuses`: when the query names UCT
and the listing has UCT POIs, multiply the running score by the walking or
non-walking distance band of the closest one. -/
def uctBlock (prop : Listing) (query_lower : String) (current_score : ℚ) : ℚ :=
  if uctQueryTerms.any (fun t => containsTok query_lower t) then
    match prop.points_of_interest.filter isUctPoi with
    | [] => current_score
    | p :: ps =>
      let uct_distance := closestDistance p ps
      if walkingTerms.any (fun t => containsTok query_lower t) then
        if uct_distance ≤ 1 then current_score * 1.4
        else if uct_distance ≤ 1.5 then current_score * 1.25
        else if uct_distance ≤ 2 then current_score * 1.1
        else current_score * 0.7
      else
        if uct_distance ≤ 2 then current_score * 1.2
        else if uct_distance ≤ 4 then current_score * 1.1
        else current_score
  else current_score

/-- The V&A Waterfront block of `_apply_proximity_bonuses`. -/
def waterfrontBlock (prop : Listing) (query_lower : String) (current_score : ℚ) : ℚ :=
  if waterfrontTerms.any (fun t => containsTok query_lower t) then
    match prop.points_of_interest.filter isWaterfrontPoi with
    | [] => current_score
    | p :: ps => if closestDistance p ps ≤ 2 then current_score * 1.15 else current_score
  else current_score

/-- The CBD block of `_apply_proximity_bonuses`. -/
def cbdBlock (prop : Listing) (query_lower : String) (current_score : ℚ) : ℚ :=
  if cbdTerms.any (fun t => containsTok query_lower t) then
    if cbd_areas.any (fun a => containsTok (strLower prop.neighborhood) a) then
      current_score * 1.1
    else current_score
  else current_score

/-- Embeds `EnhancedSearchService._apply_proximity_bonuses`: return the
score unchanged when the listing has no points of interest
(`if not prop.points_of_interest: return current_score`), otherwise run the
UCT, waterfront and CBD blocks in order, each multiplying the running score
when its conditions fire. -/
def _apply_proximity_bonuses (prop : Listing) (query_lower : String) (current_score : ℚ) : ℚ :=
  if prop.points_of_interest = [] then current_score
  else cbdBlock prop query_lower
    (waterfrontBlock prop query_lower (uctBlock prop query_lower current_score))

/-- The `type_keywords` list of `EnhancedSearchService._apply_core_criteria_only`. -/
def type_keywords : List String := ["apartment", "flat", "house", "townhouse"]

/-- The `type_matches` synonym table of `_apply_core_criteria_only`. -/
def type_matches (k : String) : List String :=
  if k = "apartment" then ["apartment", "flat"]
  else if k = "flat" then ["apartment", "flat"]
  else if k = "house" then ["house", "villa"]
  else if k = "townhouse" then ["townhouse", "town house"]
  else [k]

/-- Embeds `EnhancedSearchService._apply_core_criteria_only`.  `bedroomReq`
is the capture of the regex `(\d+)\s*(?:bed|bedroom)` on `query_lower`; the
property-type keyword scan and synonym matching are translated directly. -/
def _apply_core_criteria_only (bedroomReq : Option ℕ) (prop : Listing)
    (query_lower : String) (base_score : ℚ) : ℚ :=
  let s1 := match bedroomReq with
    | some requested_beds => if prop.bedrooms ≠ requested_beds then base_score * 0.7 else base_score
    | none => base_score
  match type_keywords.find? (fun k => containsTok query_lower k) with
  | some mentioned_type =>
    let prop_type := strLower prop.type
    if (type_matches mentioned_type).any (fun t => containsTok prop_type t) then s1
    else s1 * 0.85
  | none => s1

/-- The full constraint overlay as `_apply_property_context_scoring` chains
it: hard constraints, then proximity bonuses, then core-criteria penalties. -/
def constraintOverlay (priceUnder priceOver : Option ℚ) (bedroomReq : Option ℕ)
    (prop : Listing) (query_lower : String) (score : ℚ) : ℚ :=
  _apply_core_criteria_only bedroomReq prop query_lower
    (_apply_proximity_bonuses prop query_lower
      (_apply_hard_constraints priceUnder priceOver prop query_lower score))

/- ### Security configuration (`app/core/security.py`) -/

/-- `SecurityConfig.SEARCH_RATE_LIMIT` of `app/core/security.py`. -/
def SEARCH_RATE_LIMIT : String := "5/minute"

/-- `SecurityConfig.EXPLANATION_RATE_LIMIT` of `app/core/security.py`. -/
def EXPLANATION_RATE_LIMIT : String := "5/minute"

/-- `SecurityConfig.GENERAL_RATE_LIMIT` of `app/core/security.py`. -/
def GENERAL_RATE_LIMIT : String := "5/minute"

/-- `SecurityConfig.STRICT_RATE_LIMIT` of `app/core/security.py`. -/
def STRICT_RATE_LIMIT : String := "3/minute"

/-- Numeric value of a digit list, `none` when empty or non-digit. -/
def digitsToNat : List Char → Option ℕ
  | [] => none
  | l => l.foldl (fun acc c =>
      acc.bind (fun a => if c.isDigit then some (a * 10 + (c.toNat - 48)) else none))
      (some 0)

/-- The per-minute limit denoted by a slowapi rate string `"N/minute"`. -/
def perMinuteLimit (s : String) : Option ℕ :=
  match s.data.span (fun c => c ≠ '/') with
  | (ds, '/' :: rest) => if rest = "minute".data then digitsToNat ds else none
  | _ => none

/- ### Streaming explanations (`app/services/explanation_service.py`) -/

/-- One server-sent event of `PropertyExplanationService.stream_explanation`
(the JSON object carried on a `data:` line, or the `[DONE]` terminator). -/
inductive SEvent where
  | cachedHit
  | start
  | chunk (content : String)
  | complete (explanation : String)
  | error (message : String)
  | done
deriving DecidableEq

/-- Result of one run of the streaming generator: the emitted event
sequence and the cache write it performed (`none` when nothing was cached). -/
structure StreamRun where
  events : List SEvent
  cacheWrite : Option String
deriving DecidableEq

/-- The code-fence stripping of `stream_explanation`:
`response_text = full_response.strip()`, then if it starts with three
backticks and `json`, drop the fence markers and strip again. -/
def stripFences (full_response : String) : String :=
  let t := strStrip full_response
  if t.startsWith "```json" then
    strStrip ((t.replace "```json" "").replace "```" "")
  else t

/-- Embeds `PropertyExplanationService.stream_explanation`.
`cachedExplanation` models the cache lookup, `llmChunks` the contents
streamed by the LLM before it either finished (`llmError = none`) or raised
(`llmError = some message`, which the `except` block turns into an error
event), and `parse` the `json.loads`-plus-validation step producing the
structured explanation (`none` models a raised `JSONDecodeError` or
validation error).  On the cache hit the generator emits cached/complete and
the terminator and returns; otherwise it emits start, one chunk event per
streamed chunk, then either the complete event followed by the write-through
cache set and the terminator, or (when anything in the `try` body raised)
the error event and the terminator with no cache write. -/
def stream_explanation (cachedExplanation : Option String) (llmChunks : List String)
    (llmError : Option String) (parse : String → Option String) : StreamRun :=
  match cachedExplanation with
  | some explanation_data =>
    { events := [.cachedHit, .complete explanation_data, .done], cacheWrite := none }
  | none =>
    let pre := SEvent.start :: llmChunks.map SEvent.chunk
    match llmError with
    | some msg => { events := pre ++ [.error msg, .done], cacheWrite := none }
    | none =>
      let full_response := String.join llmChunks
      match parse (stripFences full_response) with
      | some explanation =>
        { events := pre ++ [.complete explanation, .done], cacheWrite := some explanation }
      | none =>
        { events := pre ++ [.error "Invalid AI response format", .done], cacheWrite := none }

/- ### Helper lemmas on characters and strings -/

lemma toNat_ofNat_valid (n : ℕ) (h : Nat.isValidChar n) : (Char.ofNat n).toNat = n := by
  rw [Char.ofNat, dif_pos h]
  rfl

lemma charLe_iff_toNat {a c : Char} : a ≤ c ↔ a.toNat ≤ c.toNat := by
  constructor
  · intro h; exact h
  · intro h; exact h

lemma lowerChar_toNat_of_upper (c : Char) (h : 'A' ≤ c ∧ c ≤ 'Z') :
    (lowerChar c).toNat = c.toNat + 32 := by
  have h1 : 65 ≤ c.toNat := h.1
  have h2 : c.toNat ≤ 90 := h.2
  have hv : Nat.isValidChar (c.toNat + 32) := by
    left; omega
  simp only [lowerChar, if_pos h]
  exact toNat_ofNat_valid _ hv

lemma isSpaceC_lowerChar (c : Char) : isSpaceC (lowerChar c) = isSpaceC c := by
  by_cases h : ('A' ≤ c ∧ c ≤ 'Z')
  · have h1 : (65 : ℕ) ≤ c.toNat := h.1
    have h2 : c.toNat ≤ 90 := h.2
    have hl := lowerChar_toNat_of_upper c h
    have hA : isSpaceC c = false := by
      simp only [isSpaceC, Bool.or_eq_false_iff, beq_eq_false_iff_ne, ne_eq]
      refine ⟨⟨⟨?_, ?_⟩, ?_⟩, ?_⟩ <;> intro hc <;> subst hc <;> simp_all
    have hB : isSpaceC (lowerChar c) = false := by
      simp only [isSpaceC, Bool.or_eq_false_iff, beq_eq_false_iff_ne, ne_eq]
      refine ⟨⟨⟨?_, ?_⟩, ?_⟩, ?_⟩ <;> intro hc <;> rw [hc] at hl <;> simp_all
    rw [hA, hB]
  · simp [lowerChar, h]

lemma lowerChar_idem (c : Char) : lowerChar (lowerChar c) = lowerChar c := by
  by_cases h : ('A' ≤ c ∧ c ≤ 'Z')
  · have h1 : (65 : ℕ) ≤ c.toNat := h.1
    have hl := lowerChar_toNat_of_upper c h
    have hnot : ¬('A' ≤ lowerChar c ∧ lowerChar c ≤ 'Z') := by
      intro hcontra
      have : (lowerChar c).toNat ≤ 90 := hcontra.2
      omega
    conv_lhs => rw [lowerChar]
    rw [if_neg hnot]
  · simp [lowerChar, h]

lemma trimL_eq_rdropWhile (l : List Char) :
    trimL l = List.rdropWhile isSpaceC (l.dropWhile isSpaceC) := rfl

lemma dropWhile_trimL (l : List Char) :
    (trimL l).dropWhile isSpaceC = trimL l := by
  rw [trimL_eq_rdropWhile]
  rcases hp : List.rdropWhile isSpaceC (l.dropWhile isSpaceC) with _ | ⟨x, t⟩
  · simp
  · have hpre := List.rdropWhile_prefix isSpaceC (l.dropWhile isSpaceC)
    rw [hp] at hpre
    obtain ⟨t', ht'⟩ := hpre
    have h0 : (l.dropWhile isSpaceC).head? = some x := by
      rw [← ht']; simp
    have hx : isSpaceC x = false := by
      have hh := List.head?_dropWhile_not isSpaceC l
      rw [h0] at hh
      exact hh
    simp [List.dropWhile_cons, hx]

lemma trimL_idem (l : List Char) : trimL (trimL l) = trimL l := by
  calc trimL (trimL l)
      = List.rdropWhile isSpaceC ((trimL l).dropWhile isSpaceC) := rfl
    _ = List.rdropWhile isSpaceC (trimL l) := by rw [dropWhile_trimL]
    _ = trimL l := by rw [trimL_eq_rdropWhile, List.rdropWhile_idempotent]

lemma isSpaceC_comp_lowerChar : (isSpaceC ∘ lowerChar) = isSpaceC :=
  funext isSpaceC_lowerChar

lemma trimL_lowerL (l : List Char) : trimL (lowerL l) = lowerL (trimL l) := by
  unfold trimL lowerL
  rw [List.dropWhile_map, isSpaceC_comp_lowerChar, ← List.map_reverse,
    List.dropWhile_map, isSpaceC_comp_lowerChar, ← List.map_reverse]

lemma lowerL_idem (l : List Char) : lowerL (lowerL l) = lowerL l := by
  unfold lowerL
  rw [List.map_map]
  congr 1
  funext c
  exact lowerChar_idem c

lemma strNormalize_invariant (q : String) :
    strLower (strStrip (strStrip (strLower q))) = strLower (strStrip q) := by
  cases q with
  | mk d =>
    show String.mk (lowerL (trimL (trimL (lowerL d)))) = String.mk (lowerL (trimL d))
    apply congrArg String.mk
    rw [trimL_idem, trimL_lowerL, lowerL_idem]

/-- Claim C5: the explanation cache key is the fixed namespace followed by
the MD5 digest of the stripped, lower-cased query joined with the listing
key by a colon, so the key is invariant under trimming and lower-casing of
the query: `cache_key(q, k) = cache_key(trim(lower(q)), k)`. -/
theorem cache_key_trim_lower_invariant (md5hex : String → String) (q k : String) :
    _generate_cache_key md5hex q k = _generate_cache_key md5hex (strStrip (strLower q)) k := by
  unfold _generate_cache_key
  rw [strNormalize_invariant q]

/- ### Rounding lemmas -/

lemma floor_le_roundHalfEven (q : ℚ) : ⌊q⌋ ≤ roundHalfEven q := by
  simp only [roundHalfEven]
  split_ifs <;> omega

lemma roundHalfEven_le_floor_add_one (q : ℚ) : roundHalfEven q ≤ ⌊q⌋ + 1 := by
  simp only [roundHalfEven]
  split_ifs <;> omega

lemma roundHalfEven_intCast (n : ℤ) : roundHalfEven (n : ℚ) = n := by
  unfold roundHalfEven
  rw [Int.floor_intCast]
  norm_num

/- ### Claim C1: the fusion rule -/

/-- Claim C1 (counterexample): at `llm = 67`, `hybrid_base = 66.6` the code
produces `66.84` while the claimed fusion (piecewise rule, clamp, round to
one decimal) produces `66.8`; the code never rounds. -/
theorem combine_score_not_rounded :
    _combine_score 67 (333 / 5) ≠ specFinalScore 67 (333 / 5) := by
  have h1 : _combine_score 67 (333 / 5) = 1671 / 25 := by
    norm_num [_combine_score]
  have h2 : specFinalScore 67 (333 / 5) = 334 / 5 := by
    have hf : fusionSpec 67 (333 / 5) = 1671 / 25 := by
      norm_num [fusionSpec]
    have hc : min 100 (max 10 (fusionSpec 67 (333 / 5))) = 1671 / 25 := by
      rw [hf]; norm_num
    have hr : roundHalfEven (10 * (1671 / 25 : ℚ)) = 668 := by
      have : (10 : ℚ) * (1671 / 25) = 3342 / 5 := by norm_num
      rw [this]
      unfold roundHalfEven
      have hfl : ⌊(3342 / 5 : ℚ)⌋ = 668 := by
        rw [Int.floor_eq_iff]
        norm_num
      rw [hfl]
      norm_num
    unfold specFinalScore roundTo1
    rw [hc, hr]
    norm_num
  rw [h1, h2]
  norm_num

/-- Claim C1 (amended): the fusion step computes exactly the claimed
piecewise rule clamped to [10,100]; no rounding to one decimal occurs. -/
theorem combine_score_eq_spec_piecewise :
    ∀ ai_score hybrid_base : ℚ,
      _combine_score ai_score hybrid_base =
        min 100 (max 10 (fusionSpec ai_score hybrid_base)) := by
  intro a h
  show min 100 (max 10 _) = min 100 (max 10 _)
  apply congrArg (fun x : ℚ => min 100 (max 10 x))
  unfold fusionSpec
  by_cases H85 : a ≥ 85
  · rw [if_pos H85, if_pos H85]
  · by_cases H70 : a ≥ 70
    · have hs : 70 ≤ a ∧ a < 85 := ⟨H70, lt_of_not_ge H85⟩
      rw [if_neg H85, if_neg H85, if_pos H70, if_pos hs]
    · by_cases H50 : a ≥ 50
      · have hs2 : ¬(70 ≤ a ∧ a < 85) := fun hc => H70 hc.1
        have hs3 : 50 ≤ a ∧ a < 70 := ⟨H50, lt_of_not_ge H70⟩
        rw [if_neg H85, if_neg H85, if_neg H70, if_neg hs2, if_pos H50, if_pos hs3]
      · by_cases H30 : a ≤ 30
        · have hs2 : ¬(70 ≤ a ∧ a < 85) := fun hc => H70 hc.1
          have hs3 : ¬(50 ≤ a ∧ a < 70) := fun hc => H50 hc.1
          have hs4 : ¬(30 < a ∧ a < 50) := fun hc => absurd hc.1 (not_lt.mpr H30)
          rw [if_neg H85, if_neg H85, if_neg H70, if_neg hs2, if_neg H50, if_neg hs3,
            if_pos H30, if_neg hs4]
        · have hs2 : ¬(70 ≤ a ∧ a < 85) := fun hc => H70 hc.1
          have hs3 : ¬(50 ≤ a ∧ a < 70) := fun hc => H50 hc.1
          have hs4 : 30 < a ∧ a < 50 := ⟨lt_of_not_ge H30, lt_of_not_ge H50⟩
          rw [if_neg H85, if_neg H85, if_neg H70, if_neg hs2, if_neg H50, if_neg hs3,
            if_neg H30, if_pos hs4]

/- ### Claim C2: score bounds of ranked listings -/

/-- Claim C2 (counterexample): the hybrid fusion path emits
`_combine_score 67 66.6 = 66.84`, a final score with two fractional digits
(and the fusion clamp floor is 10, not 15), so not every ranked listing
satisfies the claimed invariant. -/
theorem final_score_invariant_fails_on_fusion :
    oneDecimal (_combine_score 67 (333 / 5)) = false ∧
    _combine_score 5 10 < 15 := by
  constructor
  · have h1 : _combine_score 67 (333 / 5) = 1671 / 25 := by
      norm_num [_combine_score]
    rw [h1]
    have h2 : (10 : ℚ) * (1671 / 25) = 3342 / 5 := by norm_num
    have hd : ((3342 : ℚ) / 5).den = 5 := by norm_num
    rw [oneDecimal, h2]
    simp [hd]
  · have h3 : _combine_score 5 10 = 10 := by
      norm_num [_combine_score]
    rw [h3]
    norm_num

/-- Claim C2 (amended): the fast score-and-rank path clamps every final
score into [15,100] and rounds it to one fractional digit; the hybrid
fusion path guarantees only `10 ≤ final ≤ 100` and performs no rounding. -/
theorem ranked_score_bounds :
    (∀ s : ℚ, 15 ≤ fastScoreClamp s ∧ fastScoreClamp s ≤ 100 ∧
      oneDecimal (fastScoreClamp s) = true) ∧
    (∀ ai_score hybrid_base : ℚ, 10 ≤ _combine_score ai_score hybrid_base ∧
      _combine_score ai_score hybrid_base ≤ 100) := by
  constructor
  · intro s
    set m : ℚ := max (min s 100) 15 with hm
    have hlo : (15 : ℚ) ≤ m := le_max_right _ _
    have hhi : m ≤ 100 := by
      apply max_le
      · exact min_le_right _ _
      · norm_num
    have hr1 : (150 : ℤ) ≤ roundHalfEven (10 * m) := by
      have hf : (150 : ℤ) ≤ ⌊(10 : ℚ) * m⌋ := by
        rw [Int.le_floor]
        push_cast
        linarith
      linarith [floor_le_roundHalfEven (10 * m)]
    have hr2 : roundHalfEven (10 * m) ≤ 1000 := by
      rcases eq_or_lt_of_le (show (10 : ℚ) * m ≤ 1000 by linarith) with heq | hlt
      · rw [heq, show (1000 : ℚ) = ((1000 : ℤ) : ℚ) by norm_num, roundHalfEven_intCast]
      · have hfl : ⌊(10 : ℚ) * m⌋ < 1000 := by
          rw [Int.floor_lt]
          push_cast
          linarith
        have hb := roundHalfEven_le_floor_add_one (10 * m)
        omega
    refine ⟨?_, ?_, ?_⟩
    · show (15 : ℚ) ≤ roundTo1 m
      rw [roundTo1, show (15 : ℚ) = 150 / 10 by norm_num]
      gcongr
      exact_mod_cast hr1
    · show roundTo1 m ≤ 100
      rw [roundTo1, show (100 : ℚ) = 1000 / 10 by norm_num]
      gcongr
      exact_mod_cast hr2
    · show oneDecimal (roundTo1 m) = true
      rw [roundTo1, oneDecimal]
      have h10 : (10 : ℚ) * ((roundHalfEven (10 * m) : ℚ) / 10) = (roundHalfEven (10 * m) : ℚ) := by
        field_simp
      rw [h10, Rat.den_intCast]
      rfl
  · intro a h
    unfold _combine_score
    constructor
    · exact le_min (by norm_num) (le_max_left _ _)
    · exact min_le_left _ _

/- ### Claim C3: listings missing from the LLM response -/

/-- Claim C3 (counterexample): a listing missing from the parsed LLM
response keeps `searchScore = hybrid_base = 80`, but the fusion then
produces `0.7·80 + 0.3·80 + 3 = 83 ≠ 80`, so its pre-overlay final score is
not its hybrid base. -/
theorem missing_llm_entry_not_hybrid_base :
    _apply_enhanced_ai_score (fun _ => none) 0 80 = 80 ∧
    _combine_score 80 80 = 83 ∧ (83 : ℚ) ≠ 80 := by
  refine ⟨rfl, ?_, by norm_num⟩
  norm_num [_combine_score]

/-- Claim C3 (amended): a listing missing from the parsed LLM response
enters fusion with `ai_score = hybrid_base`; its final score before the
constraint overlay equals `hybrid_base` when `hybrid_base < 70`, equals
`hybrid_base + 3` when `70 ≤ hybrid_base < 85`, and equals
`min(100, hybrid_base + 2)` when `hybrid_base ≥ 85`. -/
theorem missing_llm_entry_final_score (aiRank : ℕ → Option ℚ) (i : ℕ) (hb : ℚ)
    (hmiss : aiRank i = none) (hlo : 10 ≤ hb) (hhi : hb ≤ 100) :
    _combine_score (_apply_enhanced_ai_score aiRank i hb) hb =
      if hb < 70 then hb else if hb < 85 then hb + 3 else min 100 (hb + 2) := by
  have happ : _apply_enhanced_ai_score aiRank i hb = hb := by
    unfold _apply_enhanced_ai_score
    rw [hmiss]
  rw [happ]
  simp only [_combine_score]
  by_cases H85 : hb ≥ 85
  · rw [if_pos H85, if_pos (show hb ≥ 75 by linarith),
      if_neg (show ¬hb < 70 by linarith), if_neg (show ¬hb < 85 by linarith)]
    rw [max_eq_right (by linarith : (10 : ℚ) ≤ hb + 2)]
  · by_cases H70 : hb ≥ 70
    · rw [if_neg H85, if_pos H70, if_pos (show hb ≥ 70 from H70),
        if_neg (show ¬hb < 70 by linarith), if_pos (show hb < 85 by linarith)]
      rw [show 0.7 * hb + 0.3 * hb + 3 = hb + 3 by ring,
        max_eq_right (by linarith : (10 : ℚ) ≤ hb + 3),
        min_eq_right (by linarith : hb + 3 ≤ 100)]
    · rw [if_neg H85, if_neg H70, if_pos (show hb < 70 by linarith)]
      by_cases H50 : hb ≥ 50
      · rw [if_pos H50, show 0.6 * hb + 0.4 * hb = hb by ring,
          max_eq_right (by linarith : (10 : ℚ) ≤ hb),
          min_eq_right (by linarith : hb ≤ 100)]
      · by_cases H30 : hb ≤ 30
        · rw [if_neg H50, if_pos H30, if_pos (show hb ≤ 40 by linarith),
            max_eq_right hlo, min_eq_right hhi]
        · rw [if_neg H50, if_neg H30, show 0.65 * hb + 0.35 * hb = hb by ring,
            max_eq_right hlo, min_eq_right hhi]

/-- Witness for C3 (amended) at `hybrid_base = 50`. -/
theorem missing_llm_entry_final_score_witness :
    _combine_score (_apply_enhanced_ai_score (fun _ => none) 0 50) 50 = 50 := by
  have h := missing_llm_entry_final_score (fun _ => none) 0 50 rfl (by norm_num) (by norm_num)
  rw [h]
  norm_num

/- ### BM25 lemmas -/

lemma bm25_denominator_pos (tf dl : ℕ) (avgdl : ℚ) (hpos : 0 < avgdl) (htf : 0 < tf) :
    0 < (tf : ℚ) + bm25_k1 * (1 - bm25_b + bm25_b * ((dl : ℚ) / avgdl)) := by
  have hr : (0 : ℚ) ≤ (dl : ℚ) / avgdl := div_nonneg (by positivity) (le_of_lt hpos)
  have h1 : (1 : ℚ) ≤ (tf : ℚ) := by exact_mod_cast htf
  unfold bm25_k1 bm25_b
  nlinarith

lemma bm25TermStep_some (idf_cache : List (String × ℚ)) (avgdl : ℚ) (dts : List String)
    (acc : ℚ) (t : String) (hpos : 0 < avgdl) :
    ∃ v, bm25TermStep idf_cache avgdl dts acc t = some v := by
  by_cases htf : 0 < dts.count t
  · have hden := bm25_denominator_pos (dts.count t) dts.length avgdl hpos htf
    refine ⟨acc + idfGet idf_cache t * ((dts.count t : ℚ) * (bm25_k1 + 1) /
      ((dts.count t : ℚ) + bm25_k1 * (1 - bm25_b + bm25_b * ((dts.length : ℚ) / avgdl)))), ?_⟩
    simp [bm25TermStep, htf, divQ?, hpos.ne', hden.ne']
  · exact ⟨acc, by simp [bm25TermStep, htf]⟩

lemma bm25TermStep_unknown (idf_cache : List (String × ℚ)) (avgdl : ℚ) (dts : List String)
    (acc : ℚ) (t : String) (hpos : 0 < avgdl)
    (hunk : idf_cache.find? (fun p => p.1 == t) = none) :
    bm25TermStep idf_cache avgdl dts acc t = some acc := by
  by_cases htf : 0 < dts.count t
  · have hden := bm25_denominator_pos (dts.count t) dts.length avgdl hpos htf
    simp [bm25TermStep, htf, divQ?, hpos.ne', hden.ne', idfGet, hunk]
  · simp [bm25TermStep, htf]

lemma bm25_foldlM_insert_id (idf_cache : List (String × ℚ)) (avgdl : ℚ) (dts : List String)
    (ts₁ ts₂ : List String) (t : String) (c : ℚ)
    (h : ∀ acc, bm25TermStep idf_cache avgdl dts acc t = some acc) :
    (ts₁ ++ t :: ts₂).foldlM (bm25TermStep idf_cache avgdl dts) c =
      (ts₁ ++ ts₂).foldlM (bm25TermStep idf_cache avgdl dts) c := by
  rw [List.foldlM_append, List.foldlM_append]
  cases hres : ts₁.foldlM (bm25TermStep idf_cache avgdl dts) c with
  | none => rfl
  | some b =>
    simp only [Option.bind_eq_bind, Option.some_bind, List.foldlM_cons, h b]

lemma bm25_foldlM_id (idf_cache : List (String × ℚ)) (avgdl : ℚ) (dts : List String)
    (qts : List String) (c : ℚ)
    (h : ∀ acc t, t ∈ qts → bm25TermStep idf_cache avgdl dts acc t = some acc) :
    qts.foldlM (bm25TermStep idf_cache avgdl dts) c = some c := by
  induction qts generalizing c with
  | nil => rfl
  | cons x xs ih =>
    rw [List.foldlM_cons, h c x (List.mem_cons_self x xs)]
    simpa using ih c (fun acc t ht => h acc t (List.mem_cons_of_mem x ht))

lemma bm25_foldlM_some (idf_cache : List (String × ℚ)) (avgdl : ℚ) (dts : List String)
    (qts : List String) (c : ℚ) (hpos : 0 < avgdl) :
    ∃ r, qts.foldlM (bm25TermStep idf_cache avgdl dts) c = some r := by
  induction qts generalizing c with
  | nil => exact ⟨c, rfl⟩
  | cons x xs ih =>
    obtain ⟨v, hv⟩ := bm25TermStep_some idf_cache avgdl dts c x hpos
    rw [List.foldlM_cons, hv]
    simpa using ih v

lemma bm25_foldlM_none (idf_cache : List (String × ℚ)) (dts : List String)
    (qts : List String) (t : String) (ht : t ∈ qts) (htf : 0 < dts.count t) (c : ℚ) :
    qts.foldlM (bm25TermStep idf_cache 0 dts) c = none := by
  induction qts generalizing c with
  | nil => cases ht
  | cons x xs ih =>
    rw [List.foldlM_cons]
    by_cases hx : 0 < dts.count x
    · have hstep : bm25TermStep idf_cache 0 dts c x = none := by
        simp [bm25TermStep, hx, divQ?]
      rw [hstep]
      rfl
    · have hstep : bm25TermStep idf_cache 0 dts c x = some c := by
        simp [bm25TermStep, hx]
      rw [hstep]
      have ht' : t ∈ xs := by
        rcases List.mem_cons.mp ht with rfl | h'
        · exact absurd htf hx
        · exact h'
      simpa using ih ht' c

/-- Claim C4: in every BM25 score calculation, a query term absent from the
IDF cache contributes 0 to the score, a document with an empty token list
scores 0, and the returned score is non-negative; stated under the
precondition `0 < avgdl` that makes the calculation well-defined
(claim C10 treats the degenerate corpus). -/
theorem bm25_score_properties (idf_cache : List (String × ℚ)) (avgdl : ℚ)
    (hpos : 0 < avgdl) :
    (∀ ts₁ ts₂ term dts, idf_cache.find? (fun p => p.1 == term) = none →
      _calculate_bm25_score idf_cache avgdl (ts₁ ++ term :: ts₂) dts =
        _calculate_bm25_score idf_cache avgdl (ts₁ ++ ts₂) dts) ∧
    (∀ qts, _calculate_bm25_score idf_cache avgdl qts [] = some 0) ∧
    (∀ qts dts r, _calculate_bm25_score idf_cache avgdl qts dts = some r → 0 ≤ r) := by
  refine ⟨?_, ?_, ?_⟩
  · intro ts₁ ts₂ term dts hunk
    unfold _calculate_bm25_score
    rw [bm25_foldlM_insert_id idf_cache avgdl dts ts₁ ts₂ term 0
      (fun acc => bm25TermStep_unknown idf_cache avgdl dts acc term hpos hunk)]
  · intro qts
    unfold _calculate_bm25_score
    rw [bm25_foldlM_id idf_cache avgdl [] qts 0
      (fun acc t _ => by simp [bm25TermStep])]
    simp
  · intro qts dts r hr
    unfold _calculate_bm25_score at hr
    cases hfold : qts.foldlM (bm25TermStep idf_cache avgdl dts) 0 with
    | none => rw [hfold] at hr; cases hr
    | some s =>
      rw [hfold] at hr
      simp only [Option.map_some'] at hr
      cases hr
      exact le_max_left 0 s

/-- Witness for C4 at `avgdl = 1`: a term missing from the empty IDF cache
contributes nothing, and the empty document scores 0. -/
theorem bm25_score_properties_witness :
    _calculate_bm25_score [] 1 ["seapoint"] ["house"] =
      _calculate_bm25_score [] 1 [] ["house"] ∧
    _calculate_bm25_score [] 1 ["house"] [] = some 0 := by
  have h := bm25_score_properties [] 1 (by norm_num)
  constructor
  · have h1 := h.1 [] [] "seapoint" ["house"] (by decide)
    simpa using h1
  · exact h.2.1 ["house"]

/-- Claim C10: the BM25 average document length is positive exactly when the
built corpus has a document with at least one token; with an empty or
all-empty sample `avgdl = 0`, and scoring any candidate sharing a term with
the query then divides by zero, while `0 < avgdl` makes every score
calculation succeed. -/
theorem bm25_avgdl_guard :
    (∀ docs : List (List String), docs ≠ [] → (∃ d ∈ docs, d ≠ []) →
      0 < _build_avgdl docs) ∧
    (∀ docs : List (List String), (docs = [] ∨ ∀ d ∈ docs, d = []) →
      _build_avgdl docs = 0) ∧
    (∀ idf_cache qts dts term, term ∈ qts → term ∈ dts →
      _calculate_bm25_score idf_cache 0 qts dts = none) ∧
    (∀ idf_cache avgdl qts dts, (0 : ℚ) < avgdl →
      ∃ r, _calculate_bm25_score idf_cache avgdl qts dts = some r) := by
  refine ⟨?_, ?_, ?_, ?_⟩
  · intro docs hne ⟨d, hd, hdne⟩
    unfold _build_avgdl
    rw [if_neg (by simpa [List.isEmpty_iff] using hne)]
    apply div_pos
    · have hlen : 0 < d.length := List.length_pos.mpr hdne
      have hmem : d.length ∈ docs.map List.length := List.mem_map_of_mem _ hd
      have hsum : d.length ≤ (docs.map List.length).sum :=
        List.single_le_sum (fun x _ => Nat.zero_le x) _ hmem
      have : 0 < (docs.map List.length).sum := lt_of_lt_of_le hlen hsum
      exact_mod_cast this
    · have : 0 < docs.length := List.length_pos.mpr hne
      exact_mod_cast this
  · intro docs hcase
    unfold _build_avgdl
    rcases hcase with rfl | hall
    · simp
    · by_cases hne : docs.isEmpty
      · rw [if_pos hne]
      · rw [if_neg hne]
        have hz : (docs.map List.length).sum = 0 := by
          apply List.sum_eq_zero
          intro x hx
          obtain ⟨d, hd, rfl⟩ := List.mem_map.mp hx
          rw [hall d hd]
          rfl
        rw [hz]
        simp
  · intro idf_cache qts dts term hq hd
    unfold _calculate_bm25_score
    rw [bm25_foldlM_none idf_cache dts qts term hq (List.count_pos_iff.mpr hd) 0]
    rfl
  · intro idf_cache avgdl qts dts hpos
    unfold _calculate_bm25_score
    obtain ⟨r, hr⟩ := bm25_foldlM_some idf_cache avgdl dts qts 0 hpos
    exact ⟨max 0 r, by rw [hr]; rfl⟩

/-- Witness for C10: the empty sample yields `avgdl = 0`, and scoring a
document sharing the term `"house"` with the query then divides by zero. -/
theorem bm25_avgdl_guard_witness :
    _build_avgdl [] = 0 ∧
    _calculate_bm25_score [] 0 ["house"] ["house"] = none := by
  have h := bm25_avgdl_guard
  exact ⟨h.2.1 [] (Or.inl rfl),
    h.2.2.1 [] ["house"] ["house"] "house" (by decide) (by decide)⟩

/- ### Constraint-overlay lemmas -/

lemma hard_constraints_linear (pu po : Option ℚ) (l : Listing) (q : String) (s : ℚ) :
    _apply_hard_constraints pu po l q s = s * _apply_hard_constraints pu po l q 1 := by
  cases pu <;> cases po <;>
    simp only [_apply_hard_constraints] <;> split_ifs <;> ring

lemma uctBlock_eq_factor (l : Listing) (q : String) (s : ℚ) :
    uctBlock l q s = s * uctFactor l q := by
  cases hu : l.points_of_interest.filter isUctPoi <;>
    simp only [uctBlock, uctFactor, hu] <;> split_ifs <;> ring

lemma waterfrontBlock_eq_factor (l : Listing) (q : String) (s : ℚ) :
    waterfrontBlock l q s = s * waterfrontFactor l q := by
  cases hw : l.points_of_interest.filter isWaterfrontPoi <;>
    simp only [waterfrontBlock, waterfrontFactor, hw] <;> split_ifs <;> ring

lemma cbdBlock_eq_factor (l : Listing) (q : String) (s : ℚ) :
    cbdBlock l q s = s * cbdFactor l q := by
  simp only [cbdBlock, cbdFactor]
  split_ifs <;> ring

lemma proximity_factored (l : Listing) (q : String) (h0 : l.points_of_interest ≠ []) (s : ℚ) :
    _apply_proximity_bonuses l q s =
      s * uctFactor l q * waterfrontFactor l q * cbdFactor l q := by
  rw [_apply_proximity_bonuses, if_neg h0, uctBlock_eq_factor,
    waterfrontBlock_eq_factor, cbdBlock_eq_factor]

lemma proximity_linear (l : Listing) (q : String) (s : ℚ) :
    _apply_proximity_bonuses l q s = s * _apply_proximity_bonuses l q 1 := by
  by_cases h0 : l.points_of_interest = []
  · simp [_apply_proximity_bonuses, h0]
  · rw [proximity_factored l q h0 s, proximity_factored l q h0 1]
    ring

lemma core_criteria_linear (br : Option ℕ) (l : Listing) (q : String) (s : ℚ) :
    _apply_core_criteria_only br l q s = s * _apply_core_criteria_only br l q 1 := by
  cases br <;> cases hty : type_keywords.find? (fun k => containsTok q k) <;>
    simp only [_apply_core_criteria_only, hty] <;> (try split_ifs) <;> ring

/-- Claim C6 (counterexample): for the query "under 1 million" and a listing
priced at 2 000 000, one overlay application of a base score 50 gives 15,
but applying the overlay to 15 again gives 4.5, so the overlay is not
idempotent. -/
theorem constraint_overlay_not_idempotent :
    constraintOverlay (some 1000000) none none ⟨2000000, 2, "house", "claremont", []⟩
        "under 1 million"
        (constraintOverlay (some 1000000) none none ⟨2000000, 2, "house", "claremont", []⟩
          "under 1 million" 50) ≠
      constraintOverlay (some 1000000) none none ⟨2000000, 2, "house", "claremont", []⟩
        "under 1 million" 50 := by
  have hloc : impossible_locations.any (fun loc => containsTok "under 1 million" loc) = false := by
    decide
  have hty : type_keywords.find? (fun k => containsTok "under 1 million" k) = none := by
    decide
  have heval : ∀ s : ℚ,
      constraintOverlay (some 1000000) none none ⟨2000000, 2, "house", "claremont", []⟩
        "under 1 million" s = s * 0.3 := by
    intro s
    unfold constraintOverlay _apply_hard_constraints _apply_proximity_bonuses
      _apply_core_criteria_only
    simp [hloc, hty, show (1000000 : ℚ) < 2000000 by norm_num]
  rw [heval, heval]
  norm_num

/-- Claim C6 (amended): the constraint overlay multiplies the score by a
factor depending only on the listing and the query, so applying it twice
multiplies by the factor twice; it is idempotent only when that factor is 1
(or the score is 0), not in general. -/
theorem constraint_overlay_homogeneous :
    ∀ (priceUnder priceOver : Option ℚ) (bedroomReq : Option ℕ) (prop : Listing)
      (query_lower : String) (score : ℚ),
      constraintOverlay priceUnder priceOver bedroomReq prop query_lower score =
        score * constraintOverlay priceUnder priceOver bedroomReq prop query_lower 1 := by
  intro pu po br l q s
  unfold constraintOverlay
  have h3 := core_criteria_linear br l q
    (_apply_proximity_bonuses l q (_apply_hard_constraints pu po l q s))
  have h2 := proximity_linear l q (_apply_hard_constraints pu po l q s)
  have h1 := hard_constraints_linear pu po l q s
  have h3' := core_criteria_linear br l q
    (_apply_proximity_bonuses l q (_apply_hard_constraints pu po l q 1))
  have h2' := proximity_linear l q (_apply_hard_constraints pu po l q 1)
  rw [h3, h2, h1, h3', h2']
  ring

/-- Claim C7: whenever the query names UCT with a walking qualifier and the
listing has at least one UCT point of interest, the proximity stage
multiplies the score by the UCT factor (alongside the waterfront and CBD
factors), and that factor is 1.4 for minimum distance ≤ 1 km, 1.25 for
1 < d ≤ 1.5, 1.1 for 1.5 < d ≤ 2, and 0.7 for d > 2. -/
theorem uct_walking_bands (prop : Listing) (q : String)
    (hq : uctQueryTerms.any (fun t => containsTok q t) = true)
    (hw : walkingTerms.any (fun t => containsTok q t) = true)
    (p : POI) (ps : List POI)
    (hf : prop.points_of_interest.filter isUctPoi = p :: ps) :
    (∀ s, _apply_proximity_bonuses prop q s =
      s * uctFactor prop q * waterfrontFactor prop q * cbdFactor prop q) ∧
    (closestDistance p ps ≤ 1 → uctFactor prop q = 1.4) ∧
    (1 < closestDistance p ps → closestDistance p ps ≤ 1.5 → uctFactor prop q = 1.25) ∧
    (1.5 < closestDistance p ps → closestDistance p ps ≤ 2 → uctFactor prop q = 1.1) ∧
    (2 < closestDistance p ps → uctFactor prop q = 0.7) := by
  have h0 : prop.points_of_interest ≠ [] := by
    intro hnil
    rw [hnil] at hf
    simp at hf
  have hfac : uctFactor prop q =
      (if closestDistance p ps ≤ 1 then 1.4
       else if closestDistance p ps ≤ 1.5 then 1.25
       else if closestDistance p ps ≤ 2 then 1.1 else 0.7) := by
    simp only [uctFactor, hq, hf, hw, eq_self_iff_true, if_true]
  refine ⟨fun s => proximity_factored prop q h0 s, ?_, ?_, ?_, ?_⟩
  · intro hd
    rw [hfac, if_pos hd]
  · intro hd1 hd2
    rw [hfac, if_neg (not_le.mpr hd1), if_pos hd2]
  · intro hd1 hd2
    rw [hfac, if_neg (not_le.mpr (by linarith : (1 : ℚ) < closestDistance p ps)),
      if_neg (not_le.mpr hd1), if_pos hd2]
  · intro hd
    rw [hfac, if_neg (not_le.mpr (by linarith : (1 : ℚ) < closestDistance p ps)),
      if_neg (not_le.mpr (by linarith : (1.5 : ℚ) < closestDistance p ps)),
      if_neg (not_le.mpr hd)]

/-- Witness for C7: the query "walking distance to uct" and a listing with
the single POI "UCT Upper Campus" at 1 km gets UCT factor 1.4. -/
theorem uct_walking_bands_witness :
    uctFactor ⟨1000000, 2, "apartment", "rondebosch", [⟨"UCT Upper Campus", 1⟩]⟩
      "walking distance to uct" = 1.4 := by
  have hpoi : isUctPoi ⟨"UCT Upper Campus", 1⟩ = true := by decide
  have hfil : List.filter isUctPoi
      ([⟨"UCT Upper Campus", 1⟩] : List POI) = [⟨"UCT Upper Campus", 1⟩] := by
    simp [hpoi]
  have h := uct_walking_bands
    ⟨1000000, 2, "apartment", "rondebosch", [⟨"UCT Upper Campus", 1⟩]⟩
    "walking distance to uct" (by decide) (by decide)
    ⟨"UCT Upper Campus", 1⟩ [] hfil
  exact h.2.1 (by norm_num [closestDistance])

/- ### Claim C8: streaming errors terminate cleanly and cache nothing -/

/-- Claim C8: in every streaming explanation run that has started (cache
miss) and then fails — the LLM raising after any number of chunks, or the
accumulated text (including the zero-chunk empty text) failing to parse or
validate — the stream ends with an error event followed by the terminator,
and no cache entry is written. -/
theorem stream_error_no_cache (llmChunks : List String) (llmError : Option String)
    (parse : String → Option String)
    (herr : llmError ≠ none ∨ parse (stripFences (String.join llmChunks)) = none) :
    (∃ pre msg, (stream_explanation none llmChunks llmError parse).events =
      pre ++ [.error msg, .done]) ∧
    (stream_explanation none llmChunks llmError parse).cacheWrite = none := by
  cases hle : llmError with
  | some msg =>
    constructor
    · exact ⟨SEvent.start :: llmChunks.map SEvent.chunk, msg, by
        simp [stream_explanation, hle]⟩
    · simp [stream_explanation, hle]
  | none =>
    have hp : parse (stripFences (String.join llmChunks)) = none := by
      rcases herr with h | h
      · exact absurd hle h
      · exact h
    constructor
    · exact ⟨SEvent.start :: llmChunks.map SEvent.chunk, "Invalid AI response format", by
        simp [stream_explanation, hle, hp]⟩
    · simp [stream_explanation, hle, hp]

/-- Witness for C8: an LLM failure before any chunk yields the error event,
the terminator, and no cache write. -/
theorem stream_error_no_cache_witness :
    (∃ pre msg, (stream_explanation none [] (some "LLM failure")
      (fun _ => none)).events = pre ++ [.error msg, .done]) ∧
    (stream_explanation none [] (some "LLM failure") (fun _ => none)).cacheWrite = none :=
  stream_error_no_cache [] (some "LLM failure") (fun _ => none) (Or.inl (by simp))

/- ### Claim C9: rate-limit tiers -/

/-- Claim C9 (counterexample): the general tier of `SecurityConfig` in
`app/core/security.py` is "5/minute", not the claimed 100 per minute. -/
theorem general_rate_limit_not_hundred :
    perMinuteLimit GENERAL_RATE_LIMIT = some 5 ∧
    perMinuteLimit GENERAL_RATE_LIMIT ≠ some 100 := by
  constructor
  · decide
  · decide

/-- Claim C9 (amended): the four per-IP rate-limit tiers of
`SecurityConfig` have per-minute limits strict = 3, explanation = 5,
search = 5, and general = 5. -/
theorem rate_limit_tiers :
    perMinuteLimit STRICT_RATE_LIMIT = some 3 ∧
    perMinuteLimit EXPLANATION_RATE_LIMIT = some 5 ∧
    perMinuteLimit SEARCH_RATE_LIMIT = some 5 ∧
    perMinuteLimit GENERAL_RATE_LIMIT = some 5 := by
  refine ⟨?_, ?_, ?_, ?_⟩ <;> decide

end PropMatch
